import Mathlib

/-!
# Verification of the training-grant application's data-model and export pipeline

A shallow embedding, in Lean 4, of the parts of the `trainingGrantApp`
repository (a Flask training-expense tracker) that the specification's
checkable claims are about:

* the `ready_for_approval` derivation (`models.calculate_ready_for_approval`,
  `models.insert_training_form`);
* the soft-delete / recover / approval-toggle life cycle over the relational
  store (`models.soft_delete_training_form`, `models.recover_training_form`,
  `app.approve_training`) and the export candidate query
  (`models.get_approved_forms_for_export`);
* the child-table replacement operation (`models.update_trainees`);
* the claim-5 export pipeline (`app.export_claim5`: quarter / date-range
  filtering, per-form sheet processing with per-form exception handling, and
  the deduplicated personnel roster), with `utils.get_quarter`;
* the `course_cost` form field (`forms.SmartFloatField`,
  `forms.ExternalTrainingField`).

Conventions of the embedding:

* Python dictionary values that a function inspects with truthiness tests and
  `str(...)` are modelled by the inductive `PyVal` (`None`, strings, integers).
  Floating-point representation issues are out of scope; numeric amounts are
  modelled as rationals (`Rat`).
* Python dates/datetimes are modelled by `PyDate` (year, month, day); the
  time-of-day component, which none of the verified code inspects (the code
  truncates with `str(...)[:10]`), is dropped.  Timestamps that are only
  stored and compared for equality (`deleted_datetimestamp`, etc.) are `Nat`
  ticks.
* SQLAlchemy tables are lists of row records; `query(...).filter_by(...)
  .first()` followed by in-place mutation is the first-match updater
  `updateFirst`.  Auto-increment surrogate ids of child rows are not modelled
  (no verified claim inspects them).  `_apply_sorting_and_pagination` with
  `page_size=0` only reorders rows by submission date and applies no limit;
  the claims under verification are about membership, so the reordering is
  not modelled.
* Code that can raise returns `Except String _`; a `try/except` block that
  logs and swallows becomes a `match` on that result.
-/

/-! ## Python string primitives

The Python string methods the code uses (`str.strip`, `str.lower`,
`str.split("@")[0]` / `str.partition("@")[0]`, `<=` on strings) are modelled
as plain functions on the character list of a `String`.  All values they are
applied to in this code base are ASCII, where these agree with Python's
Unicode-aware versions. -/

/-- Python `s.strip()`: remove leading and trailing whitespace. -/
def trimStr (s : String) : String :=
  ⟨((s.data.dropWhile Char.isWhitespace).reverse.dropWhile
      Char.isWhitespace).reverse⟩

/-- Python `s.lower()` (ASCII). -/
def lowerStr (s : String) : String := ⟨s.data.map Char.toLower⟩

/-- The local part of an email address: Python's
`email.split("@")[0] if "@" in email else email` (`src/app.py:1164-1165`)
and `trainer_email.partition("@")[0]` (`src/app.py:1193`) both yield the
characters before the first `@`, or the whole string when there is none. -/
def localPartStr (e : String) : String :=
  ⟨e.data.takeWhile (fun c => c ≠ '@')⟩

/-- Python `<=` on strings: lexicographic comparison by code point. -/
def charListLe : List Char → List Char → Bool
  | [], _ => true
  | _ :: _, [] => false
  | a :: as, b :: bs =>
    if a.val < b.val then true
    else if b.val < a.val then false
    else charListLe as bs

/-- Python `a <= b` on strings. -/
def pyStrLe (a b : String) : Bool := charListLe a.data b.data

/-! ## Python value model -/

/-- A Python value as it can occur in the `form_data` dictionaries passed to
`models.insert_training_form` / `models.calculate_ready_for_approval`:
`None`, a string, or an integer (floating-point representation is out of
scope for this development). -/
inductive PyVal where
  | vnone
  | vstr (s : String)
  | vint (n : Int)
deriving DecidableEq, Repr

/-- Python truthiness of a `PyVal` (`None`, `""` and `0` are falsy). -/
def PyVal.truthy : PyVal → Bool
  | .vnone => false
  | .vstr s => s ≠ ""
  | .vint n => n ≠ 0

/-- Python `str(...)` of a `PyVal`. -/
def PyVal.toStr : PyVal → String
  | .vnone => "None"
  | .vstr s => s
  | .vint n => toString n

/-! ## `ready_for_approval` derivation (`src/models.py:497-517`, `455-494`) -/

/-- The fields of a `form_data` dictionary that
`calculate_ready_for_approval` inspects, plus the `is_draft` and
`ready_for_approval` keys that `insert_training_form` consumes.  Fields the
derivation never reads are omitted. -/
structure FormData where
  training_name : PyVal := .vnone
  trainer_name : PyVal := .vnone
  supplier_name : PyVal := .vnone
  location_details : PyVal := .vnone
  training_description : PyVal := .vnone
  notes : PyVal := .vnone
  invoice_number : PyVal := .vnone
  concur_claim : PyVal := .vnone
  ida_class : PyVal := .vnone
  course_cost : PyVal := .vnone
  is_draft : Bool := false
  /-- `some b` when the dictionary explicitly carries a
  `ready_for_approval` key. -/
  ready_for_approval : Option Bool := none
deriving DecidableEq, Repr

/-- `flagged_values` from `calculate_ready_for_approval`
(`src/models.py:499`). -/
def flagged_values : List String :=
  ["NA", "N/A", "na", "1111", "€1111.00", "€1111", "1111.00"]

/-- `fields_to_check` from `calculate_ready_for_approval`
(`src/models.py:506-509`), in source order. -/
def fields_to_check (fd : FormData) : List PyVal :=
  [fd.training_name, fd.trainer_name, fd.supplier_name, fd.location_details,
   fd.training_description, fd.notes, fd.invoice_number, fd.concur_claim,
   fd.ida_class, fd.course_cost]

/-- `models.calculate_ready_for_approval` (`src/models.py:497-517`):
returns `False` when `ida_class` is truthy and case-insensitively
`"not sure"` after stripping, or when some checked field is truthy and its
stripped string form is one of the flagged placeholder values; `True`
otherwise.  The source's early-return loop over `fields_to_check` is
rendered with `List.any`. -/
def calculate_ready_for_approval (fd : FormData) : Bool :=
  if fd.ida_class.truthy ∧ lowerStr (trimStr fd.ida_class.toStr) = "not sure" then
    false
  else if (fields_to_check fd).any
      (fun v => v.truthy && decide (trimStr v.toStr ∈ flagged_values)) then
    false
  else
    true

/-- The `ready_for_approval` value stored by `models.insert_training_form`
(`src/models.py:458-460`, `480`) and by `models.update_training_form`
(`src/models.py:527-529`): the explicitly supplied value when the dictionary
carries the key, the derived value otherwise. -/
def stored_ready_for_approval (fd : FormData) : Bool :=
  fd.ready_for_approval.getD (calculate_ready_for_approval fd)

/-! ## `course_cost` field processing (`src/forms.py:111-137`, `255-261`) -/

/-- The raw state of one form field's submitted value, as seen by
`SmartFloatField.process_formdata`.  `blank` covers the empty string and
`None` (the two cases the field special-cases); `numeric q` is a value the
float conversion of the parent `FloatField` accepts, held as a rational;
`malformed` is a value that conversion rejects. -/
inductive RawField where
  | absent
  | blank
  | numeric (q : Rat)
  | malformed
deriving DecidableEq, Repr

/-- `forms.SmartFloatField.process_formdata` (`src/forms.py:111-121`): an
empty string or `None` first entry is converted to `data = None` before the
parent's float conversion can fail; otherwise the parent `FloatField`
processing runs (conversion failure raises a validation error, an absent
value leaves `data` at its `None` default). -/
def smartFloat_process : RawField → Except String (Option Rat)
  | .blank => .ok none
  | .absent => .ok none
  | .numeric q => .ok (some q)
  | .malformed => .error "Not a valid float value."

/-- `forms.ExternalTrainingField` validator (`src/forms.py:124-137`),
instantiated at `course_cost` with
`message = "Course Cost is required for external training."` and
`min_value = 0` (`src/forms.py:255-261`).  For `"External Training"` the
field is required (Python `not field.data and field.data != 0`, which holds
exactly for `data = None`) and must be `≥ min_value`; for
`"Internal Training"` the data is cleared to `None`. -/
def external_training_validate (training_type : String) (message : String)
    (min_value : Rat) (data : Option Rat) : Except String (Option Rat) :=
  if training_type = "External Training" then
    let falsy : Bool := match data with | none => true | some q => decide (q = 0)
    let ne_zero : Bool := match data with | none => true | some q => decide (q ≠ 0)
    if falsy && ne_zero then
      .error message
    else if (match data with | none => false | some q => decide (q < min_value)) then
      .error "Value cannot be negative."
    else
      .ok data
  else if training_type = "Internal Training" then
    .ok none
  else
    .ok data

/-! ## Relational store (`src/models.py`) -/

/-- A calendar date as Python's `datetime.date` exposes it to the verified
code (`dt.year`, `dt.month`, `dt.day`); time-of-day, which the export
truncates away with `str(...)[:10]`, is dropped. -/
structure PyDate where
  year : Nat
  month : Nat
  day : Nat
deriving DecidableEq, Repr

/-- A row of the `training_forms` table (`src/models.py:87-114`). -/
structure FormRow where
  id : Nat
  training_type : String
  training_name : String
  trainer_name : Option String := none
  trainer_email : Option String := none
  trainer_department : Option String := none
  supplier_name : Option String := none
  location_type : String
  location_details : Option String := none
  start_date : Option PyDate := none
  end_date : Option PyDate := none
  training_hours : Option Rat := none
  submission_date : Option Nat := none
  approved : Bool := false
  ready_for_approval : Bool := true
  is_draft : Bool := false
  concur_claim : Option String := none
  course_cost : Rat := 0
  invoice_number : Option String := none
  training_description : String
  notes : Option String := none
  submitter : Option String := none
  created_at : Option Nat := none
  ida_class : Option String := none
  deleted : Bool := false
  deleted_datetimestamp : Option Nat := none
deriving DecidableEq, Repr

/-- A row of the `trainees` table (`src/models.py:217-227`).  The
auto-increment surrogate `id` and `created_at` default are not modelled:
the verified claims compare trainee rows by (name, email, department). -/
structure TraineeRow where
  form_id : Nat
  name : String
  email : String
  department : String
deriving DecidableEq, Repr

/-- A row of the `travel_expenses` table (`src/models.py:241-258`). -/
structure TravelRow where
  form_id : Nat
  travel_date : Option PyDate := none
  destination : String := ""
  traveler_type : String := ""
  traveler_email : String := ""
  traveler_name : String := ""
  travel_mode : String := ""
  cost : Option Rat := none
  distance_km : Option Rat := none
  concur_claim_number : Option String := none
deriving DecidableEq, Repr

/-- A row of the `material_expenses` table (`src/models.py:280-289`). -/
structure MaterialRow where
  form_id : Nat
  purchase_date : Option PyDate := none
  supplier_name : String := ""
  invoice_number : String := ""
  material_cost : Rat := 0
  concur_claim_number : Option String := none
deriving DecidableEq, Repr

/-- A row of the `attachments` table (`src/models.py:198-206`). -/
structure AttachmentRow where
  form_id : Nat
  filename : String
  description : Option String := none
deriving DecidableEq, Repr

/-- The relational store: the `training_forms` table and its child tables. -/
structure DBState where
  forms : List FormRow
  trainees : List TraineeRow
  travel_expenses : List TravelRow
  material_expenses : List MaterialRow
  attachments : List AttachmentRow
deriving DecidableEq, Repr

/-- The empty database. -/
def DBState.empty : DBState := ⟨[], [], [], [], []⟩

/-- `session.query(...).filter_by(...).first()` followed by in-place
mutation of the found row: update the first element satisfying `p` with `u`,
returning whether a match was found together with the new table. -/
def updateFirst (p : FormRow → Bool) (u : FormRow → FormRow) :
    List FormRow → Bool × List FormRow
  | [] => (false, [])
  | f :: rest =>
    if p f then (true, u f :: rest)
    else
      let r := updateFirst p u rest
      (r.1, f :: r.2)

/-- `models.soft_delete_training_form` (`src/models.py:535-548`): find the
first row with the given id that is not deleted; if none, return `False`
with the store unchanged; otherwise mark it deleted, stamp it with the
current time, force `approved = False`, and return `True`. -/
def soft_delete_training_form (db : DBState) (form_id : Nat) (now : Nat) :
    Bool × DBState :=
  let r := updateFirst (fun f => f.id == form_id && !f.deleted)
    (fun f => { f with deleted := true, deleted_datetimestamp := some now,
                       approved := false }) db.forms
  (r.1, { db with forms := r.2 })

/-- `models.recover_training_form` (`src/models.py:551-563`): find the first
row with the given id that is deleted; if none, return `False` with the
store unchanged; otherwise clear `deleted` and `deleted_datetimestamp` and
return `True`. -/
def recover_training_form (db : DBState) (form_id : Nat) :
    Bool × DBState :=
  let r := updateFirst (fun f => f.id == form_id && f.deleted)
    (fun f => { f with deleted := false, deleted_datetimestamp := none })
    db.forms
  (r.1, { db with forms := r.2 })

/-- `app.approve_training` (`src/app.py:478-525`), state effect only: find
the first row with the given id — deleted or not, the route applies no
`deleted` filter — and toggle its `approved` flag. -/
def approve_training (db : DBState) (form_id : Nat) : DBState :=
  { db with
    forms := (updateFirst (fun f => f.id == form_id)
      (fun f => { f with approved := !f.approved }) db.forms).2 }

/-- `models.get_approved_forms_for_export` (`src/models.py:599-605`): all
rows with `approved = True` — and no other filter; in particular `deleted`
is not consulted.  The `_apply_sorting_and_pagination(query, page_size=0)`
call only reorders by submission date and is not modelled. -/
def get_approved_forms_for_export (db : DBState) : List FormRow :=
  db.forms.filter (·.approved)

/-- The dictionary shape accepted for one trainee by
`models.update_trainees` / `models.insert_trainees`: `department` is
optional in the input (`trainee_data.get("department", "Engineering")`). -/
structure TraineeInput where
  name : String
  email : String
  department : Option String := none
deriving DecidableEq, Repr

/-- Row construction in `models.update_trainees` (`src/models.py:802-809`):
missing departments default to `"Engineering"`. -/
def mkTrainee (form_id : Nat) (t : TraineeInput) : TraineeRow :=
  ⟨form_id, t.name, t.email, t.department.getD "Engineering"⟩

/-- `models.update_trainees` (`src/models.py:794-813`): delete every
trainee row of the form, then bulk-insert the new rows, in one
transaction. -/
def update_trainees (db : DBState) (form_id : Nat)
    (trainees_data : List TraineeInput) : Bool × DBState :=
  (true,
   { db with
     trainees := db.trainees.filter (fun t => ¬ t.form_id = form_id)
       ++ trainees_data.map (mkTrainee form_id) })

/-- The database states reachable through the verified operations: starting
from the empty store, inserting a form the way the submit route does
(`models.insert_training_form` called from `prepare_form_data`-shaped data
leaves `approved = False`, `deleted = False` and no deletion stamp —
`src/models.py:479`, column defaults `src/models.py:112-114`), toggling
approval, soft-deleting, recovering, and replacing trainee lists. -/
inductive Reachable : DBState → Prop where
  | empty : Reachable DBState.empty
  | insert {db : DBState} (r : FormRow) :
      Reachable db → r.approved = false → r.deleted = false →
      r.deleted_datetimestamp = none →
      Reachable { db with forms := db.forms ++ [r] }
  | approve {db : DBState} (form_id : Nat) :
      Reachable db → Reachable (approve_training db form_id)
  | softDelete {db : DBState} (form_id now : Nat) :
      Reachable db → Reachable (soft_delete_training_form db form_id now).2
  | recover {db : DBState} (form_id : Nat) :
      Reachable db → Reachable (recover_training_form db form_id).2
  | replaceTrainees {db : DBState} (form_id : Nat) (xs : List TraineeInput) :
      Reachable db → Reachable (update_trainees db form_id xs).2

/-! ## Claim-5 export pipeline (`src/app.py:1066-1360`, `src/utils.py:59-70`) -/

/-- `utils.get_quarter` (`src/utils.py:59-70`):
`q = (dt.month - 1) // 3 + 1`, formatted `f"Q{q} {dt.year}"`.  Python's
floor division `//` is `Int.fdiv`. -/
def get_quarter (d : PyDate) : String :=
  "Q" ++ toString (((d.month : Int) - 1).fdiv 3 + 1) ++ " " ++ toString d.year

/-- Zero-padded decimal rendering, as Python's `date.isoformat` fields. -/
def padNum (width n : Nat) : String :=
  let s := toString n
  ⟨List.replicate (width - s.data.length) '0'⟩ ++ s

/-- Python `dt.date().isoformat()`: `YYYY-MM-DD`. -/
def iso_date (d : PyDate) : String :=
  padNum 4 d.year ++ "-" ++ padNum 2 d.month ++ "-" ++ padNum 2 d.day

/-- One trainee dictionary as `models.get_trainees` returns it to the
export (the export reads only `email` and `department`,
`src/app.py:1163-1170`). -/
structure TraineeRec where
  email : String
  department : String
deriving DecidableEq, Repr

/-- One travel-expense dictionary as the export reads it
(`src/app.py:1213-1259`). -/
structure TravelRec where
  travel_date : Option PyDate := none
  destination : String := ""
  traveler_email : String := ""
  travel_mode : String := ""
  cost : Option Rat := none
deriving DecidableEq, Repr

/-- One material-expense dictionary as the export reads it
(`src/app.py:1262-1290`). -/
structure MaterialRec where
  purchase_date : Option PyDate := none
  supplier_name : String := ""
  invoice_number : String := ""
  material_cost : Rat := 0
deriving DecidableEq, Repr

/-- Equality of modelled query outcomes is decidable. -/
instance {ε α : Type} [DecidableEq ε] [DecidableEq α] :
    DecidableEq (Except ε α) := fun x y =>
  match x, y with
  | .ok a, .ok b =>
    if h : a = b then .isTrue (by rw [h])
    else .isFalse (by intro hc; cases hc; exact h rfl)
  | .error a, .error b =>
    if h : a = b then .isTrue (by rw [h])
    else .isFalse (by intro hc; cases hc; exact h rfl)
  | .ok _, .error _ => .isFalse (by intro hc; cases hc)
  | .error _, .ok _ => .isFalse (by intro hc; cases hc)

/-- One approved form as the export receives it: the `to_dict` dictionary
of `get_approved_forms_for_export` together with the outcome of the child
queries `get_trainees` / `get_travel_expenses` / `get_material_expenses`
issued per form during the export (`Except.error` models the query — or any
other per-form step — raising, which the per-form `try/except` blocks catch
and log, `src/app.py:1145-1334`).  `created_at` is kept for the Python
`f.get("created_at") or ...` chain although `to_dict`
(`src/models.py:129-167`) never populates that key. -/
structure ExportForm where
  id : Nat
  training_type : String
  training_name : String := ""
  trainer_email : String := ""
  trainer_department : String := ""
  supplier_name : String := ""
  ida_class : String := ""
  training_hours : Option Rat := none
  course_cost : Rat := 0
  invoice_number : String := ""
  training_description : String := ""
  created_at : Option PyDate := none
  submission_date : Option PyDate := none
  start_date : Option PyDate := none
  end_date : Option PyDate := none
  trainees : Except String (List TraineeRec) := .ok []
  travel_expenses : Except String (List TravelRec) := .ok []
  material_expenses : Except String (List MaterialRec) := .ok []
deriving DecidableEq, Repr

/-- The export's derived date for a form (`src/app.py:1086-1088`):
`f.get("created_at") or f.get("submission_date") or f.get("start_date")`. -/
def derived_date (f : ExportForm) : Option PyDate :=
  (f.created_at.orElse fun _ => f.submission_date).orElse fun _ => f.start_date

/-- The POST branch's candidate filter in `app.export_claim5`
(`src/app.py:1082-1099`), as the source loop: a form with no derived date
is skipped (`continue`); otherwise, if quarters were selected and the form's
quarter is among them it is kept, else if both `start_date` and `end_date`
were supplied and the form's ISO date lies between them (Python string
comparison) it is kept; in every other case it is dropped. -/
def export_claim5_filter (selected_quarters : List String)
    (start_date end_date : Option String) (forms : List ExportForm) :
    List ExportForm :=
  forms.foldl
    (fun acc f =>
      match derived_date f with
      | none => acc
      | some d =>
        if selected_quarters ≠ [] ∧ get_quarter d ∈ selected_quarters then
          acc ++ [f]
        else
          match start_date, end_date with
          | some s, some e =>
            if pyStrLe s (iso_date d) && pyStrLe (iso_date d) e then
              acc ++ [f]
            else acc
          | _, _ => acc)
    []

/-- The certification-class cell (`src/app.py:1177-1184`):
`"Training not completed/ongoing"` becomes `"Ongoing"`, `"Class X - …"`
becomes the letter at index 6 (`ida_class[6:7]`), anything else passes
through. -/
def certification_class (ida_class : String) : String :=
  if ida_class = "Training not completed/ongoing" then "Ongoing"
  else if ("Class ".data).isPrefixOf ida_class.data then
    ⟨(ida_class.data.drop 6).take 1⟩
  else ida_class

/-- The travel-type cell (`src/app.py:1236-1247`), including the source's
odd `"Bus" → "bus"` branch. -/
def travel_type_label (travel_mode : String) : String :=
  if travel_mode = "economy_flight" then "Economy Flight"
  else if travel_mode = "mileage" then "Mileage"
  else if travel_mode = "rail" then "Rail"
  else if travel_mode = "Bus" then "bus"
  else travel_mode

/-- One data row of the `Trainee` attendance sheet (columns 1, 2, 3, 5, 8,
9, 10, 11 written at `src/app.py:1173-1205`). -/
structure TraineeSheetRow where
  trainee_name : String
  course_name : String
  certification : String
  hours : Option Rat
  start_date : Option PyDate
  end_date : Option PyDate
  internal_trainer : String
  external_trainer : String
deriving DecidableEq, Repr

/-- One data row of the `Internal Trainers` sheet
(`src/app.py:1306-1312`). -/
structure InternalTrainerRow where
  trainer_name : String
  course_name : String
  hours : Option Rat
deriving DecidableEq, Repr

/-- One data row of the `External Trainer` sheet
(`src/app.py:1320-1330`). -/
structure ExternalTrainerRow where
  start_date : Option PyDate
  supplier_name : String
  invoice_number : String
  course_name : String
  course_cost : Rat
  description : String
deriving DecidableEq, Repr

/-- One data row of the `Travel` sheet (`src/app.py:1228-1257`). -/
structure TravelSheetRow where
  travel_date : Option PyDate
  traveler_name : String
  travel_type : String
  cost : Rat
  destination_details : String
deriving DecidableEq, Repr

/-- One data row of the `Materials` sheet (`src/app.py:1274-1288`). -/
structure MaterialSheetRow where
  purchase_date : Option PyDate
  supplier_name : String
  invoice_number : String
  material_cost : Rat
  course_details : String
deriving DecidableEq, Repr

/-- The mutable state threaded through the export loop: the per-sheet rows
emitted so far (the sheets' monotone row cursors) and the personnel roster.
The source keeps the roster as two parallel lists `personnel` (names) and
`departments`, always appended in lockstep (`src/app.py:1072-1073`,
`1168-1170`, `1194-1198`, `1300-1304`) and read back pairwise at
`src/app.py:1338-1342`; the lockstep pair list models them. -/
structure ExportState where
  personnel : List (String × String) := []
  trainee_rows : List TraineeSheetRow := []
  internal_rows : List InternalTrainerRow := []
  external_rows : List ExternalTrainerRow := []
  travel_rows : List TravelSheetRow := []
  material_rows : List MaterialSheetRow := []
deriving DecidableEq, Repr

/-- `if name and name not in personnel: personnel.append(name);
departments.append(department)` (`src/app.py:1167-1170` and the two trainer
sites): add a person once, keyed by name, skipping empty names. -/
def add_person (st : ExportState) (name department : String) : ExportState :=
  if name ≠ "" ∧ st.personnel.all (fun p => p.1 ≠ name) then
    { st with personnel := st.personnel ++ [(name, department)] }
  else st

/-- Processing of one trainee inside `process_trainee_sheet`
(`src/app.py:1161-1207`): derive the name from the email's local part, add
the trainee (and, for Internal trainings, the trainer) to the roster, and
emit one attendance row. -/
def process_one_trainee (f : ExportForm) (st : ExportState)
    (t : TraineeRec) : ExportState :=
  let name := localPartStr t.email
  let st := add_person st name t.department
  if f.training_type = "Internal Training" then
    let trainer := localPartStr f.trainer_email
    let st := add_person st trainer f.trainer_department
    { st with trainee_rows := st.trainee_rows ++
        [⟨name, f.training_name, certification_class f.ida_class,
          f.training_hours, f.start_date, f.end_date, trainer, ""⟩] }
  else
    { st with trainee_rows := st.trainee_rows ++
        [⟨name, f.training_name, certification_class f.ida_class,
          f.training_hours, f.start_date, f.end_date, "",
          f.supplier_name⟩] }

/-- `process_trainee_sheet` (`src/app.py:1143-1209`): a failing trainee
query — or any exception in the body — is caught, logged, and the form's
attendance processing is skipped; an empty trainee list is also skipped
(placeholder warning). -/
def process_trainee_sheet (st : ExportState) (f : ExportForm) :
    ExportState :=
  match f.trainees with
  | .error _ => st
  | .ok [] => st
  | .ok ts => ts.foldl (process_one_trainee f) st

/-- `process_travel_expenses` (`src/app.py:1211-1260`): per-form
`try/except`; each expense becomes one `Travel` row (`cost if cost else 0`
maps a missing cost to 0). -/
def process_travel_expenses (st : ExportState) (f : ExportForm) :
    ExportState :=
  match f.travel_expenses with
  | .error _ => st
  | .ok es =>
    es.foldl
      (fun st e =>
        { st with travel_rows := st.travel_rows ++
            [⟨e.travel_date, localPartStr e.traveler_email,
              travel_type_label e.travel_mode, e.cost.getD 0,
              "Destination: " ++ e.destination ++ ", Course Details: "
                ++ f.training_name⟩] })
      st

/-- `process_material_expenses` (`src/app.py:1262-1291`): per-form
`try/except`; each expense becomes one `Materials` row. -/
def process_material_expenses (st : ExportState) (f : ExportForm) :
    ExportState :=
  match f.material_expenses with
  | .error _ => st
  | .ok es =>
    es.foldl
      (fun st e =>
        { st with material_rows := st.material_rows ++
            [⟨e.purchase_date, e.supplier_name, e.invoice_number,
              e.material_cost, f.training_name⟩] })
      st

/-- The per-form trainer-sheet block of the export loop
(`src/app.py:1296-1334`): Internal trainings add the trainer to the roster
and one `Internal Trainers` row; everything else adds one
`External Trainer` row. -/
def process_trainer_sheets (st : ExportState) (f : ExportForm) :
    ExportState :=
  if f.training_type = "Internal Training" then
    let trainer := localPartStr f.trainer_email
    let st := add_person st trainer f.trainer_department
    { st with internal_rows := st.internal_rows ++
        [⟨trainer, f.training_name, f.training_hours⟩] }
  else
    { st with external_rows := st.external_rows ++
        [⟨f.start_date, f.supplier_name, f.invoice_number,
          f.training_name, f.course_cost, f.training_description⟩] }

/-- One iteration of `for form in approved_forms:` (`src/app.py:1293-1334`). -/
def process_form (st : ExportState) (f : ExportForm) : ExportState :=
  process_trainer_sheets
    (process_material_expenses
      (process_travel_expenses (process_trainee_sheet st f) f) f) f

/-- The populated workbook as the export serializes it: the data rows of
each sheet, with the personnel roster written out pairwise at the end
(`src/app.py:1336-1342`). -/
structure Workbook where
  trainee_rows : List TraineeSheetRow
  internal_rows : List InternalTrainerRow
  external_rows : List ExternalTrainerRow
  travel_rows : List TravelSheetRow
  material_rows : List MaterialSheetRow
  personnel_rows : List (String × String)
deriving DecidableEq, Repr

/-- The outcome of `app.export_claim5`: either a downloadable workbook or a
single flashed error message with no file. -/
inductive ExportResult where
  | file (wb : Workbook)
  | flash_error (msg : String)
deriving DecidableEq, Repr

/-- Whether the export produced a workbook. -/
def ExportResult.producedFile : ExportResult → Bool
  | .file _ => true
  | .flash_error _ => false

/-- The workbook built over a given candidate list when template loading
and serialization succeed. -/
def export_workbook (approved_forms : List ExportForm) : Workbook :=
  let st := approved_forms.foldl process_form {}
  ⟨st.trainee_rows, st.internal_rows, st.external_rows, st.travel_rows,
   st.material_rows, st.personnel⟩

/-- The export body of `app.export_claim5` (`src/app.py:1105-1360`) over an
already-selected candidate list.  `template_ok` is whether the template
workbook is present and loads (`src/app.py:1107-1115`); `save_ok` is
whether serialization to the in-memory buffer succeeds.  A failure of
either aborts with a single flashed message; failures inside the per-form
processors are caught per form (modelled inside `process_form`) and never
abort. -/
def run_export (template_ok save_ok : Bool)
    (approved_forms : List ExportForm) : ExportResult :=
  if !template_ok then .flash_error "Template file not found."
  else if save_ok then .file (export_workbook approved_forms)
  else .flash_error "An error occurred during the export process."

/-! ## Specification-side views used by the theorems -/

/-- The attendance row `process_one_trainee` emits for one trainee,
expressed without the threaded state. -/
def row_of_trainee (f : ExportForm) (t : TraineeRec) : TraineeSheetRow :=
  if f.training_type = "Internal Training" then
    ⟨localPartStr t.email, f.training_name, certification_class f.ida_class,
     f.training_hours, f.start_date, f.end_date,
     localPartStr f.trainer_email, ""⟩
  else
    ⟨localPartStr t.email, f.training_name, certification_class f.ida_class,
     f.training_hours, f.start_date, f.end_date, "", f.supplier_name⟩

/-- The attendance rows one form contributes: none when its trainee query
raises, one per trainee otherwise. -/
def trainee_rows_of (f : ExportForm) : List TraineeSheetRow :=
  match f.trainees with
  | .error _ => []
  | .ok ts => ts.map (row_of_trainee f)

/-- The travel rows one form contributes. -/
def travel_rows_of (f : ExportForm) : List TravelSheetRow :=
  match f.travel_expenses with
  | .error _ => []
  | .ok es =>
    es.map fun e =>
      ⟨e.travel_date, localPartStr e.traveler_email,
       travel_type_label e.travel_mode, e.cost.getD 0,
       "Destination: " ++ e.destination ++ ", Course Details: "
         ++ f.training_name⟩

/-- The material rows one form contributes. -/
def material_rows_of (f : ExportForm) : List MaterialSheetRow :=
  match f.material_expenses with
  | .error _ => []
  | .ok es =>
    es.map fun e =>
      ⟨e.purchase_date, e.supplier_name, e.invoice_number,
       e.material_cost, f.training_name⟩

/-- The stream of candidate (name, department) roster additions one form
generates, in processing order: per trainee, the trainee and — for Internal
trainings — the trainer (`src/app.py:1167-1170`, `1194-1198`); then, in the
trainer-sheet block, the trainer again (`src/app.py:1300-1304`, reached
even when the trainee query raised or returned nothing). -/
def person_occs_of (f : ExportForm) : List (String × String) :=
  (match f.trainees with
   | .error _ => []
   | .ok ts =>
     ts.flatMap fun t =>
       (localPartStr t.email, t.department) ::
         (if f.training_type = "Internal Training" then
            [(localPartStr f.trainer_email, f.trainer_department)]
          else []))
  ++ (if f.training_type = "Internal Training" then
        [(localPartStr f.trainer_email, f.trainer_department)]
      else [])

/-- The full candidate roster stream of an export run. -/
def person_occs (forms : List ExportForm) : List (String × String) :=
  forms.flatMap person_occs_of

/-- First-occurrence-wins deduplication by (non-empty) name, continuing
from an already-accumulated roster: the declarative counterpart of the
`add_person` guard. -/
def dedup_first_by_name (acc : List (String × String)) :
    List (String × String) → List (String × String)
  | [] => acc
  | p :: rest =>
    dedup_first_by_name
      (if p.1 ≠ "" ∧ acc.all (fun q => q.1 ≠ p.1) then acc ++ [p] else acc)
      rest

/-- Whether a form's (successfully fetched) trainee list mentions the given
email. -/
def appears_as_trainee (e : String) (f : ExportForm) : Bool :=
  match f.trainees with
  | .ok ts => ts.any (fun t => t.email = e)
  | .error _ => false

/-- The forms the POST filter keeps, declaratively: a derived date must
exist, and either quarters were selected and the form's quarter is among
them, or — when the quarter test did not apply or did not match — both
range endpoints were supplied and the form's ISO date lies between them. -/
def keeps (selected_quarters : List String)
    (start_date end_date : Option String) (f : ExportForm) : Prop :=
  ∃ d, derived_date f = some d ∧
    ((selected_quarters ≠ [] ∧ get_quarter d ∈ selected_quarters) ∨
     ((selected_quarters = [] ∨ get_quarter d ∉ selected_quarters) ∧
      ∃ s e, start_date = some s ∧ end_date = some e ∧
        pyStrLe s (iso_date d) = true ∧ pyStrLe (iso_date d) e = true))

/-- The forms one filter-loop iteration appends for a given form: `[f]`
when it is kept, `[]` otherwise. -/
def keep_delta (selected_quarters : List String)
    (start_date end_date : Option String) (f : ExportForm) :
    List ExportForm :=
  match derived_date f with
  | none => []
  | some d =>
    if selected_quarters ≠ [] ∧ get_quarter d ∈ selected_quarters then [f]
    else
      match start_date, end_date with
      | some s, some e =>
        if pyStrLe s (iso_date d) && pyStrLe (iso_date d) e then [f] else []
      | _, _ => []

/-- `ida_class` triggers the "Not sure" rule of
`calculate_ready_for_approval`. -/
def ida_not_sure (fd : FormData) : Prop :=
  fd.ida_class.truthy = true ∧
    lowerStr (trimStr fd.ida_class.toStr) = "not sure"

/-- Some checked field carries one of the flagged placeholder values. -/
def has_flagged_field (fd : FormData) : Prop :=
  ∃ v ∈ fields_to_check fd, v.truthy = true ∧ trimStr v.toStr ∈ flagged_values

/-! ## Concrete instances used by witnesses and counterexamples -/

/-- A clean draft submission: `is_draft` set, no placeholder values, no
explicit `ready_for_approval`. -/
def c4_draft : FormData :=
  { training_name := .vstr "Safety 101",
    training_description := .vstr "Fire safety basics",
    is_draft := true }

/-- A submission whose `training_name` is the placeholder `"NA"`. -/
def c4_flagged : FormData :=
  { training_name := .vstr "NA",
    training_description := .vstr "tbd" }

/-- A submission with `ida_class` = `" NOT Sure "` and otherwise clean
fields. -/
def c5_not_sure : FormData :=
  { training_name := .vstr "Lean workshop",
    training_description := .vstr "theorem proving",
    ida_class := .vstr " NOT Sure " }

/-- The form row inserted in the claim-2 scenario. -/
def c2_row : FormRow :=
  { id := 1, training_type := "External Training",
    training_name := "Vendor course", location_type := "Onsite",
    training_description := "desc" }

/-- The claim-2 scenario: insert, approve, soft-delete (which forces
approval off), then toggle approval again on the now-deleted row. -/
def c2_db : DBState :=
  approve_training
    ((soft_delete_training_form
        (approve_training
          { DBState.empty with forms := DBState.empty.forms ++ [c2_row] } 1)
        1 5).2)
    1

/-- A one-form store with child rows, used to exercise the delete/recover
round trip. -/
def c6_db : DBState :=
  { forms := [{ id := 1, training_type := "Internal Training",
                training_name := "T", location_type := "Onsite",
                training_description := "d", approved := true }],
    trainees := [⟨1, "Alice", "alice@x.com", "Eng"⟩],
    travel_expenses := [{ form_id := 1, destination := "Dublin" }],
    material_expenses := [{ form_id := 1, supplier_name := "Acme" }],
    attachments := [⟨1, "cert.pdf", none⟩] }

/-- A two-form store: form 1 live, form 2 already soft-deleted. -/
def c7_db : DBState :=
  { forms := [{ id := 1, training_type := "External Training",
                training_name := "A", location_type := "Onsite",
                training_description := "a" },
              { id := 2, training_type := "External Training",
                training_name := "B", location_type := "Onsite",
                training_description := "b", deleted := true,
                deleted_datetimestamp := some 3 }],
    trainees := [], travel_expenses := [], material_expenses := [],
    attachments := [] }

/-- An approved form with a derived date, submitted to the POST filter with
no quarters and no date range. -/
def c1_form : ExportForm :=
  { id := 1, training_type := "External Training",
    training_name := "Vendor course",
    submission_date := some ⟨2024, 5, 15⟩,
    start_date := some ⟨2024, 5, 13⟩ }

/-- A form whose trainee query raises during the export. -/
def c3_bad : ExportForm :=
  { id := 1, training_type := "External Training",
    training_name := "Broken", supplier_name := "Acme",
    trainees := .error "database error" }

/-- A well-formed companion form processed after the failing one. -/
def c3_good : ExportForm :=
  { id := 2, training_type := "External Training",
    training_name := "Good", supplier_name := "Beta",
    trainees := .ok [⟨"bob@x.com", "Ops"⟩] }

/-- First form listing trainee `alice@x.com` with department `Eng`. -/
def c10_first : ExportForm :=
  { id := 1, training_type := "External Training",
    training_name := "Course 1", supplier_name := "Acme",
    trainees := .ok [⟨"alice@x.com", "Eng"⟩] }

/-- Second form listing the same trainee email with a different
department. -/
def c10_second : ExportForm :=
  { id := 2, training_type := "External Training",
    training_name := "Course 2", supplier_name := "Beta",
    trainees := .ok [⟨"alice@x.com", "Ops"⟩] }

/-- A form whose only trainee email has an empty local part. -/
def c10_anon1 : ExportForm :=
  { id := 1, training_type := "External Training",
    training_name := "Course 1", supplier_name := "Acme",
    trainees := .ok [⟨"@corp.com", "Eng"⟩] }

/-- A second form listing the same empty-local-part email. -/
def c10_anon2 : ExportForm :=
  { id := 2, training_type := "External Training",
    training_name := "Course 2", supplier_name := "Beta",
    trainees := .ok [⟨"@corp.com", "Ops"⟩] }

/-! ## Theorems -/

/-- An empty trim-lower result is only produced by strings that trim-lower
to themselves emptily; in particular a string whose trimmed, lowered form
is `"not sure"` is non-empty (hence truthy in Python). -/
theorem nonempty_of_trim_lower_not_sure {s : String}
    (h : lowerStr (trimStr s) = "not sure") : s ≠ "" := by
  intro he
  subst he
  exact absurd h (by decide)

/-- C5: For every form data whose `ida_class` is the string `"Not sure"` in
any letter case (with surrounding whitespace stripped), the derived
`ready_for_approval` is `False`, regardless of all other fields. -/
theorem ready_false_of_ida_not_sure (fd : FormData) (s : String)
    (hida : fd.ida_class = .vstr s)
    (hs : lowerStr (trimStr s) = "not sure") :
    calculate_ready_for_approval fd = false := by
  have hne : s ≠ "" := nonempty_of_trim_lower_not_sure hs
  unfold calculate_ready_for_approval
  rw [hida]
  rw [if_pos]
  exact ⟨by simpa [PyVal.truthy] using hne, by simpa [PyVal.toStr] using hs⟩

/-- Witness for C5 at `ida_class = " NOT Sure "`. -/
theorem ready_false_of_ida_not_sure_witness :
    calculate_ready_for_approval c5_not_sure = false :=
  ready_false_of_ida_not_sure c5_not_sure " NOT Sure " rfl (by decide)

/-- Counterexample to C4 as stated: a draft (`is_draft = true`) with clean
fields and no explicit `ready_for_approval` is stored with
`ready_for_approval = true`, not `false` — `calculate_ready_for_approval`
never consults `is_draft`. -/
theorem draft_stored_ready_true :
    c4_draft.is_draft = true ∧ c4_draft.ready_for_approval = none ∧
      stored_ready_for_approval c4_draft = true := by
  decide

/-- C4 (amended): when the data does not explicitly carry
`ready_for_approval`, the stored value is `false` exactly when `ida_class`
is the "Not sure" placeholder or one of the ten checked fields carries a
flagged placeholder value — and `is_draft` has no influence at all. -/
theorem stored_ready_characterization (fd : FormData) (b : Bool)
    (h : fd.ready_for_approval = none) :
    (stored_ready_for_approval fd = false ↔
      ida_not_sure fd ∨ has_flagged_field fd) ∧
    stored_ready_for_approval { fd with is_draft := b } =
      stored_ready_for_approval fd := by
  constructor
  · unfold stored_ready_for_approval
    rw [h]
    simp only [Option.getD_none]
    unfold calculate_ready_for_approval ida_not_sure has_flagged_field
    by_cases h1 : fd.ida_class.truthy = true ∧
        lowerStr (trimStr fd.ida_class.toStr) = "not sure"
    · rw [if_pos h1]
      exact ⟨fun _ => Or.inl h1, fun _ => rfl⟩
    · rw [if_neg h1]
      by_cases h2 : (fields_to_check fd).any
          (fun v => v.truthy && decide (trimStr v.toStr ∈ flagged_values)) = true
      · rw [if_pos h2]
        have h2' : ∃ v ∈ fields_to_check fd,
            v.truthy = true ∧ trimStr v.toStr ∈ flagged_values := by
          simpa using h2
        exact ⟨fun _ => Or.inr h2', fun _ => rfl⟩
      · rw [if_neg h2]
        constructor
        · intro hc; cases hc
        · intro hc
          rcases hc with hc | hc
          · exact absurd hc h1
          · refine absurd ?_ h2
            rcases hc with ⟨v, hv, ht, hm⟩
            simp only [List.any_eq_true, Bool.and_eq_true, decide_eq_true_eq]
            exact ⟨v, hv, ht, hm⟩
  · rfl

/-- Witness for C4 (amended) at a form whose `training_name` is `"NA"`. -/
theorem stored_ready_characterization_witness :
    (stored_ready_for_approval c4_flagged = false ↔
      ida_not_sure c4_flagged ∨ has_flagged_field c4_flagged) ∧
    stored_ready_for_approval { c4_flagged with is_draft := true } =
      stored_ready_for_approval c4_flagged :=
  stored_ready_characterization c4_flagged true rfl

/-- C9: a blank `course_cost` is normalized to `None` by
`SmartFloatField` instead of failing float conversion; the
`ExternalTrainingField` validator then accepts an absent cost for Internal
trainings and rejects it for External trainings with exactly
"Course Cost is required for external training.". -/
theorem course_cost_blank_handling :
    smartFloat_process .blank = .ok none ∧
    external_training_validate "Internal Training"
        "Course Cost is required for external training." 0 none = .ok none ∧
    external_training_validate "External Training"
        "Course Cost is required for external training." 0 none =
      .error "Course Cost is required for external training." := by
  decide

/-- C8: replacing a form's trainees twice with the same list yields the
same store as replacing them once (`update_trainees` is idempotent). -/
theorem update_trainees_idempotent (db : DBState) (form_id : Nat)
    (xs : List TraineeInput) :
    (update_trainees (update_trainees db form_id xs).2 form_id xs).2 =
      (update_trainees db form_id xs).2 := by
  unfold update_trainees
  simp only [List.filter_append]
  congr 1
  have hnew : (xs.map (mkTrainee form_id)).filter
      (fun t => decide (¬ t.form_id = form_id)) = [] := by
    rw [List.filter_eq_nil_iff]
    intro t ht
    rcases List.mem_map.mp ht with ⟨x, _, hx⟩
    subst hx
    simp [mkTrainee]
  rw [hnew, List.append_nil]
  congr 1
  rw [List.filter_filter]
  simp

/-- `updateFirst` reports success exactly when some row satisfies the
predicate. -/
theorem updateFirst_fst_iff (p : FormRow → Bool) (u : FormRow → FormRow)
    (l : List FormRow) :
    (updateFirst p u l).1 = true ↔ ∃ f ∈ l, p f = true := by
  induction l with
  | nil => simp [updateFirst]
  | cons f rest ih =>
    by_cases hp : p f = true
    · simp [updateFirst, hp]
    · simp [updateFirst, hp, ih]

/-- A failed `updateFirst` leaves the table unchanged. -/
theorem updateFirst_snd_of_fst_false (p : FormRow → Bool)
    (u : FormRow → FormRow) (l : List FormRow)
    (h : (updateFirst p u l).1 = false) : (updateFirst p u l).2 = l := by
  induction l with
  | nil => rfl
  | cons f rest ih =>
    by_cases hp : p f = true
    · simp [updateFirst, hp] at h
    · simp [updateFirst, hp] at h ⊢
      exact ih h

/-- A successful `updateFirst` rewrites exactly the first matching row. -/
theorem updateFirst_shape (p : FormRow → Bool) (u : FormRow → FormRow)
    (l : List FormRow) (h : (updateFirst p u l).1 = true) :
    ∃ l1 f l2, l = l1 ++ f :: l2 ∧ p f = true ∧ (∀ g ∈ l1, p g = false) ∧
      (updateFirst p u l).2 = l1 ++ u f :: l2 := by
  induction l with
  | nil => simp [updateFirst] at h
  | cons f rest ih =>
    by_cases hp : p f = true
    · exact ⟨[], f, rest, rfl, hp, by simp, by simp [updateFirst, hp]⟩
    · simp only [updateFirst, hp, if_false, if_neg] at h
      obtain ⟨l1, g, l2, heq, hg, hl1, hres⟩ := ih h
      refine ⟨f :: l1, g, l2, by simp [heq], hg, ?_, ?_⟩
      · intro x hx
        rcases List.mem_cons.mp hx with rfl | hx
        · simpa using hp
        · exact hl1 x hx
      · simp [updateFirst, hp, hres]

/-- `updateFirst` passes over a prefix with no matching row. -/
theorem updateFirst_append_not_found (p : FormRow → Bool)
    (u : FormRow → FormRow) (l1 l' : List FormRow)
    (h : ∀ g ∈ l1, p g = false) :
    updateFirst p u (l1 ++ l') =
      ((updateFirst p u l').1, l1 ++ (updateFirst p u l').2) := by
  induction l1 with
  | nil => simp
  | cons f rest ih =>
    have hf : p f = false := h f (List.mem_cons_self f rest)
    have hrest : ∀ g ∈ rest, p g = false := fun g hg =>
      h g (List.mem_cons_of_mem f hg)
    simp [updateFirst, hf, ih hrest]

/-- C7: `soft_delete_training_form` succeeds exactly on ids naming a
non-deleted row; on success it marks that (first such) row deleted, stamps
it, and forces `approved := false`; `recover_training_form` succeeds
exactly on ids naming a deleted row and clears both deletion fields; every
failure leaves the store untouched. -/
theorem soft_delete_recover_contract (db : DBState) (fid now : Nat) :
    ((soft_delete_training_form db fid now).1 = true ↔
        ∃ f ∈ db.forms, f.id = fid ∧ f.deleted = false) ∧
    ((soft_delete_training_form db fid now).1 = false →
        (soft_delete_training_form db fid now).2 = db) ∧
    ((soft_delete_training_form db fid now).1 = true →
        ∃ l1 f l2, db.forms = l1 ++ f :: l2 ∧ f.id = fid ∧
          f.deleted = false ∧
          (∀ g ∈ l1, ¬ (g.id = fid ∧ g.deleted = false)) ∧
          (soft_delete_training_form db fid now).2 =
            { db with forms := l1 ++
                { f with deleted := true,
                         deleted_datetimestamp := some now,
                         approved := false } :: l2 }) ∧
    ((recover_training_form db fid).1 = true ↔
        ∃ f ∈ db.forms, f.id = fid ∧ f.deleted = true) ∧
    ((recover_training_form db fid).1 = false →
        (recover_training_form db fid).2 = db) ∧
    ((recover_training_form db fid).1 = true →
        ∃ l1 f l2, db.forms = l1 ++ f :: l2 ∧ f.id = fid ∧
          f.deleted = true ∧
          (∀ g ∈ l1, ¬ (g.id = fid ∧ g.deleted = true)) ∧
          (recover_training_form db fid).2 =
            { db with forms := l1 ++
                { f with deleted := false,
                         deleted_datetimestamp := none } :: l2 }) := by
  have hp1 : ∀ f : FormRow,
      (f.id == fid && !f.deleted) = true ↔ (f.id = fid ∧ f.deleted = false) := by
    intro f; simp [Bool.and_eq_true]
  have hp2 : ∀ f : FormRow,
      (f.id == fid && f.deleted) = true ↔ (f.id = fid ∧ f.deleted = true) := by
    intro f; simp [Bool.and_eq_true]
  refine ⟨?_, ?_, ?_, ?_, ?_, ?_⟩
  · rw [show (soft_delete_training_form db fid now).1 =
        (updateFirst (fun f => f.id == fid && !f.deleted) _ db.forms).1 from rfl,
      updateFirst_fst_iff]
    constructor
    · rintro ⟨f, hf, hp⟩; exact ⟨f, hf, (hp1 f).mp hp⟩
    · rintro ⟨f, hf, hp⟩; exact ⟨f, hf, (hp1 f).mpr hp⟩
  · intro h
    have := updateFirst_snd_of_fst_false
      (fun f => f.id == fid && !f.deleted)
      (fun f => { f with deleted := true,
                         deleted_datetimestamp := some now,
                         approved := false }) db.forms h
    show ({ db with forms := _ } : DBState) = db
    rw [this]
  · intro h
    obtain ⟨l1, f, l2, heq, hf, hl1, hres⟩ := updateFirst_shape _ _ _ h
    refine ⟨l1, f, l2, heq, ((hp1 f).mp hf).1, ((hp1 f).mp hf).2, ?_, ?_⟩
    · intro g hg hc
      exact absurd ((hp1 g).mpr hc) (by rw [hl1 g hg]; exact Bool.false_ne_true)
    · show ({ db with forms := _ } : DBState) = _
      rw [hres]
  · rw [show (recover_training_form db fid).1 =
        (updateFirst (fun f => f.id == fid && f.deleted) _ db.forms).1 from rfl,
      updateFirst_fst_iff]
    constructor
    · rintro ⟨f, hf, hp⟩; exact ⟨f, hf, (hp2 f).mp hp⟩
    · rintro ⟨f, hf, hp⟩; exact ⟨f, hf, (hp2 f).mpr hp⟩
  · intro h
    have := updateFirst_snd_of_fst_false
      (fun f => f.id == fid && f.deleted)
      (fun f => { f with deleted := false,
                         deleted_datetimestamp := none }) db.forms h
    show ({ db with forms := _ } : DBState) = db
    rw [this]
  · intro h
    obtain ⟨l1, f, l2, heq, hf, hl1, hres⟩ := updateFirst_shape _ _ _ h
    refine ⟨l1, f, l2, heq, ((hp2 f).mp hf).1, ((hp2 f).mp hf).2, ?_, ?_⟩
    · intro g hg hc
      exact absurd ((hp2 g).mpr hc) (by rw [hl1 g hg]; exact Bool.false_ne_true)
    · show ({ db with forms := _ } : DBState) = _
      rw [hres]

/-- Witness for C7: in `c7_db`, soft-deleting live form 1 succeeds and
recovering deleted form 2 succeeds. -/
theorem soft_delete_recover_contract_witness :
    (soft_delete_training_form c7_db 1 7).1 = true ∧
      (recover_training_form c7_db 2).1 = true :=
  ⟨(soft_delete_recover_contract c7_db 1 7).1.mpr (by decide),
   (soft_delete_recover_contract c7_db 2 7).2.2.2.1.mpr (by decide)⟩

/-- In a table whose ids are unique, a member row splits the table with no
other row carrying its id. -/
theorem mem_split_unique_id (l : List FormRow) (f : FormRow)
    (hnd : (l.map (·.id)).Nodup) (hf : f ∈ l) :
    ∃ l1 l2, l = l1 ++ f :: l2 ∧ (∀ g ∈ l1, g.id ≠ f.id) ∧
      ∀ g ∈ l2, g.id ≠ f.id := by
  obtain ⟨l1, l2, rfl⟩ := List.append_of_mem hf
  rw [List.map_append, List.map_cons] at hnd
  rw [List.nodup_append] at hnd
  obtain ⟨-, hnd2, hdisj⟩ := hnd
  refine ⟨l1, l2, rfl, ?_, ?_⟩
  · intro g hg heq
    exact hdisj (List.mem_map_of_mem _ hg) (heq ▸ List.mem_cons_self _ _)
  · intro g hg heq
    rw [List.nodup_cons] at hnd2
    exact hnd2.1 (heq ▸ List.mem_map_of_mem _ hg)

/-- C6: on a store with unique form ids, soft-deleting an existing
non-deleted form and then recovering it restores `deleted = false`, leaves
`deleted_datetimestamp = none`, forces `approved = false`, and leaves every
other scalar field, every other form row and all child tables (trainees,
travel expenses, material expenses, attachments) exactly as before the
deletion. -/
theorem soft_delete_recover_round_trip (db : DBState) (fid now : Nat)
    (f : FormRow) (hnd : (db.forms.map (·.id)).Nodup) (hf : f ∈ db.forms)
    (hid : f.id = fid) (hdel : f.deleted = false) :
    ∃ l1 l2, db.forms = l1 ++ f :: l2 ∧
      (recover_training_form
          (soft_delete_training_form db fid now).2 fid).2 =
        { db with forms := l1 ++
            { f with approved := false,
                     deleted_datetimestamp := none } :: l2 } ∧
      (recover_training_form
          (soft_delete_training_form db fid now).2 fid).2.trainees =
        db.trainees ∧
      (recover_training_form
          (soft_delete_training_form db fid now).2 fid).2.travel_expenses =
        db.travel_expenses ∧
      (recover_training_form
          (soft_delete_training_form db fid now).2 fid).2.material_expenses =
        db.material_expenses ∧
      (recover_training_form
          (soft_delete_training_form db fid now).2 fid).2.attachments =
        db.attachments := by
  obtain ⟨l1, l2, heq, h1, h2⟩ := mem_split_unique_id db.forms f hnd hf
  have hp1 : ∀ g ∈ l1, (g.id == fid && !g.deleted) = false := by
    intro g hg
    have : (g.id == fid) = false := by
      simp [hid ▸ h1 g hg]
    simp [this]
  have hp2 : ∀ g ∈ l1, (g.id == fid && g.deleted) = false := by
    intro g hg
    have : (g.id == fid) = false := by
      simp [hid ▸ h1 g hg]
    simp [this]
  have hmain :
      (recover_training_form
          (soft_delete_training_form db fid now).2 fid).2 =
        { db with forms := l1 ++
            { f with approved := false,
                     deleted_datetimestamp := none } :: l2 } := by
    unfold soft_delete_training_form recover_training_form
    simp only []
    rw [heq, updateFirst_append_not_found _ _ _ _ hp1]
    have hfp : (f.id == fid && !f.deleted) = true := by
      simp [hid, hdel]
    simp only [updateFirst, hfp, if_true]
    rw [updateFirst_append_not_found _ _ _ _ hp2]
    have hfp2 :
        (({ f with deleted := true, deleted_datetimestamp := some now,
                   approved := false } : FormRow).id == fid &&
          ({ f with deleted := true, deleted_datetimestamp := some now,
                    approved := false } : FormRow).deleted) = true := by
      simp [hid]
    simp only [updateFirst, hfp2, if_true]
    congr 1
    congr 1
    cases f
    simp_all
  exact ⟨l1, l2, heq, hmain, by rw [hmain], by rw [hmain], by rw [hmain],
    by rw [hmain]⟩

/-- Witness for C6 at the one-form store `c6_db`. -/
theorem soft_delete_recover_round_trip_witness :
    ∃ l1 l2, c6_db.forms = l1 ++
        ({ id := 1, training_type := "Internal Training",
           training_name := "T", location_type := "Onsite",
           training_description := "d", approved := true } : FormRow) :: l2 ∧
      (recover_training_form
          (soft_delete_training_form c6_db 1 9).2 1).2 =
        { c6_db with forms := l1 ++
            ({ id := 1, training_type := "Internal Training",
               training_name := "T", location_type := "Onsite",
               training_description := "d", approved := false,
               deleted_datetimestamp := none } : FormRow) :: l2 } ∧
      (recover_training_form
          (soft_delete_training_form c6_db 1 9).2 1).2.trainees =
        c6_db.trainees ∧
      (recover_training_form
          (soft_delete_training_form c6_db 1 9).2 1).2.travel_expenses =
        c6_db.travel_expenses ∧
      (recover_training_form
          (soft_delete_training_form c6_db 1 9).2 1).2.material_expenses =
        c6_db.material_expenses ∧
      (recover_training_form
          (soft_delete_training_form c6_db 1 9).2 1).2.attachments =
        c6_db.attachments :=
  soft_delete_recover_round_trip c6_db 1 9 _ (by decide) (by decide) rfl rfl

/-- C2 refutation: a reachable store — insert a form, approve it,
soft-delete it (forcing approval off), then hit the approval toggle again
on the now-deleted row — whose export candidate set contains a soft-deleted
form: `get_approved_forms_for_export` filters on `approved` only, and
`approve_training` applies no `deleted` filter. -/
theorem export_includes_soft_deleted_form :
    Reachable c2_db ∧
      ∃ f ∈ get_approved_forms_for_export c2_db, f.deleted = true := by
  constructor
  · exact Reachable.approve 1
      (Reachable.softDelete 1 5
        (Reachable.approve 1
          (Reachable.insert c2_row Reachable.empty rfl rfl rfl)))
  · decide

/-- One iteration of the POST filter loop appends `keep_delta` of the form,
so the whole loop is a flat map. -/
theorem export_filter_foldl_eq (selected_quarters : List String)
    (start_date end_date : Option String) (forms : List ExportForm) :
    ∀ acc : List ExportForm,
      forms.foldl
        (fun acc f =>
          match derived_date f with
          | none => acc
          | some d =>
            if selected_quarters ≠ [] ∧ get_quarter d ∈ selected_quarters then
              acc ++ [f]
            else
              match start_date, end_date with
              | some s, some e =>
                if pyStrLe s (iso_date d) && pyStrLe (iso_date d) e then
                  acc ++ [f]
                else acc
              | _, _ => acc)
        acc =
      acc ++
        forms.flatMap (keep_delta selected_quarters start_date end_date) := by
  induction forms with
  | nil => intro acc; simp
  | cons f rest ih =>
    intro acc
    rw [List.foldl_cons, ih, List.flatMap_cons, ← List.append_assoc]
    congr 1
    unfold keep_delta
    cases hd : derived_date f with
    | none => simp
    | some d =>
      simp only []
      by_cases h1 : selected_quarters ≠ [] ∧ get_quarter d ∈ selected_quarters
      · rw [if_pos h1, if_pos h1]
      · rw [if_neg h1, if_neg h1]
        cases start_date with
        | none => simp
        | some s =>
          cases end_date with
          | none => simp
          | some e =>
            dsimp only
            by_cases h2 :
                (pyStrLe s (iso_date d) && pyStrLe (iso_date d) e) = true
            · rw [if_pos h2, if_pos h2]
            · rw [if_neg h2, if_neg h2]
              simp

/-- Membership in one form's `keep_delta` singleton. -/
theorem mem_keep_delta (selected_quarters : List String)
    (start_date end_date : Option String) (f g : ExportForm) :
    f ∈ keep_delta selected_quarters start_date end_date g ↔
      f = g ∧ keeps selected_quarters start_date end_date g := by
  unfold keep_delta keeps
  cases hd : derived_date g with
  | none => simp [hd]
  | some d =>
    simp only [hd, Option.some.injEq, exists_eq_left']
    by_cases h1 : selected_quarters ≠ [] ∧ get_quarter d ∈ selected_quarters
    · rw [if_pos h1]
      simp only [List.mem_singleton]
      constructor
      · intro hf; exact ⟨hf, Or.inl h1⟩
      · intro hf; exact hf.1
    · rw [if_neg h1]
      have h1' : selected_quarters = [] ∨ get_quarter d ∉ selected_quarters := by
        by_cases hq : selected_quarters = []
        · exact Or.inl hq
        · exact Or.inr fun hm => h1 ⟨hq, hm⟩
      cases start_date with
      | none =>
        simp only [List.not_mem_nil, false_iff]
        rintro ⟨-, hk | ⟨-, s, e, hs, -, -⟩⟩
        · exact h1 hk
        · cases hs
      | some s =>
        cases end_date with
        | none =>
          simp only [List.not_mem_nil, false_iff]
          rintro ⟨-, hk | ⟨-, s', e, -, he, -⟩⟩
          · exact h1 hk
          · cases he
        | some e =>
          dsimp only
          by_cases h2 :
              (pyStrLe s (iso_date d) && pyStrLe (iso_date d) e) = true
          · rw [if_pos h2]
            simp only [List.mem_singleton]
            constructor
            · intro hf
              refine ⟨hf, Or.inr ⟨h1', s, e, rfl, rfl, ?_, ?_⟩⟩
              · exact ((Bool.and_eq_true _ _).mp h2).1
              · exact ((Bool.and_eq_true _ _).mp h2).2
            · intro hf; exact hf.1
          · rw [if_neg h2]
            simp only [List.not_mem_nil, false_iff]
            rintro ⟨-, hk | ⟨-, s', e', hs', he', hr1, hr2⟩⟩
            · exact h1 hk
            · cases hs'; cases he'
              exact h2 ((Bool.and_eq_true _ _).mpr ⟨hr1, hr2⟩)

/-- C1 (amended): the POST export keeps exactly the candidate forms with a
derivable date that either match a selected quarter, or — when the quarter
test does not apply or does not match — fall inside a supplied date range;
with neither filter supplied nothing is kept. -/
theorem export_filter_mem_iff (selected_quarters : List String)
    (start_date end_date : Option String) (forms : List ExportForm)
    (f : ExportForm) :
    f ∈ export_claim5_filter selected_quarters start_date end_date forms ↔
      f ∈ forms ∧ keeps selected_quarters start_date end_date f := by
  unfold export_claim5_filter
  rw [export_filter_foldl_eq, List.nil_append, List.mem_flatMap]
  constructor
  · rintro ⟨g, hg, hf⟩
    obtain ⟨rfl, hk⟩ := (mem_keep_delta _ _ _ _ _).mp hf
    exact ⟨hg, hk⟩
  · rintro ⟨hf, hk⟩
    exact ⟨f, hf, (mem_keep_delta _ _ _ _ _).mpr ⟨rfl, hk⟩⟩

/-- Counterexample to C1 as stated: a POST request with no quarters and no
date range keeps no forms at all, although the claim says all approved
forms are then kept — `c1_form` has a derivable date yet is dropped. -/
theorem export_filter_drops_all_without_filters :
    export_claim5_filter [] none none [c1_form] = [] ∧
      derived_date c1_form = some ⟨2024, 5, 15⟩ := by
  decide

/-- `add_person` never touches the attendance rows. -/
theorem add_person_trainee_rows (st : ExportState) (n d : String) :
    (add_person st n d).trainee_rows = st.trainee_rows := by
  unfold add_person
  split <;> rfl

/-- `add_person` is one deduplication step on the roster. -/
theorem add_person_personnel (st : ExportState) (n d : String) :
    (add_person st n d).personnel =
      dedup_first_by_name st.personnel [(n, d)] := by
  unfold add_person
  simp only [dedup_first_by_name]
  split_ifs <;> rfl

/-- Deduplicating a concatenated stream is deduplicating in two stages. -/
theorem dedup_first_by_name_append (l1 l2 : List (String × String)) :
    ∀ acc, dedup_first_by_name acc (l1 ++ l2) =
      dedup_first_by_name (dedup_first_by_name acc l1) l2 := by
  induction l1 with
  | nil => intro acc; rfl
  | cons p rest ih =>
    intro acc
    simp only [List.cons_append, dedup_first_by_name]
    exact ih _

/-- One trainee's processing appends exactly its attendance row. -/
theorem process_one_trainee_trainee_rows (f : ExportForm)
    (st : ExportState) (t : TraineeRec) :
    (process_one_trainee f st t).trainee_rows =
      st.trainee_rows ++ [row_of_trainee f t] := by
  unfold process_one_trainee row_of_trainee
  by_cases h : f.training_type = "Internal Training"
  · dsimp only
    rw [if_pos h, if_pos h]
    simp [add_person_trainee_rows]
  · dsimp only
    rw [if_neg h, if_neg h]
    simp [add_person_trainee_rows]

/-- One trainee's processing performs exactly its roster additions. -/
theorem process_one_trainee_personnel (f : ExportForm) (st : ExportState)
    (t : TraineeRec) :
    (process_one_trainee f st t).personnel =
      dedup_first_by_name st.personnel
        ((localPartStr t.email, t.department) ::
          (if f.training_type = "Internal Training" then
            [(localPartStr f.trainer_email, f.trainer_department)]
          else [])) := by
  unfold process_one_trainee
  by_cases h : f.training_type = "Internal Training"
  · dsimp only
    rw [if_pos h, if_pos h]
    show (add_person (add_person st (localPartStr t.email) t.department)
        (localPartStr f.trainer_email) f.trainer_department).personnel = _
    rw [add_person_personnel, add_person_personnel,
      ← dedup_first_by_name_append]
    rfl
  · dsimp only
    rw [if_neg h, if_neg h]
    show (add_person st (localPartStr t.email) t.department).personnel = _
    rw [add_person_personnel]

/-- Folding the trainee loop appends all rows of the list. -/
theorem trainee_fold_trainee_rows (f : ExportForm) (ts : List TraineeRec) :
    ∀ st : ExportState,
      ((ts.foldl (process_one_trainee f) st).trainee_rows) =
        st.trainee_rows ++ ts.map (row_of_trainee f) := by
  induction ts with
  | nil => intro st; simp
  | cons t rest ih =>
    intro st
    rw [List.foldl_cons, ih, process_one_trainee_trainee_rows]
    simp

/-- Folding the trainee loop performs all roster additions of the list. -/
theorem trainee_fold_personnel (f : ExportForm) (ts : List TraineeRec) :
    ∀ st : ExportState,
      ((ts.foldl (process_one_trainee f) st).personnel) =
        dedup_first_by_name st.personnel
          (ts.flatMap fun t =>
            (localPartStr t.email, t.department) ::
              (if f.training_type = "Internal Training" then
                [(localPartStr f.trainer_email, f.trainer_department)]
              else [])) := by
  induction ts with
  | nil => intro st; rfl
  | cons t rest ih =>
    intro st
    rw [List.foldl_cons, ih, process_one_trainee_personnel,
      List.flatMap_cons, dedup_first_by_name_append]

/-- The per-form trainee sheet processing: rows appended. -/
theorem process_trainee_sheet_trainee_rows (st : ExportState)
    (f : ExportForm) :
    (process_trainee_sheet st f).trainee_rows =
      st.trainee_rows ++ trainee_rows_of f := by
  unfold process_trainee_sheet trainee_rows_of
  cases h : f.trainees with
  | error e => simp
  | ok ts =>
    cases ts with
    | nil => simp
    | cons t rest => exact trainee_fold_trainee_rows f (t :: rest) st

/-- The per-form trainee sheet processing: roster additions. -/
theorem process_trainee_sheet_personnel (st : ExportState)
    (f : ExportForm) :
    (process_trainee_sheet st f).personnel =
      dedup_first_by_name st.personnel
        (match f.trainees with
         | .error _ => []
         | .ok ts =>
           ts.flatMap fun t =>
             (localPartStr t.email, t.department) ::
               (if f.training_type = "Internal Training" then
                 [(localPartStr f.trainer_email, f.trainer_department)]
               else [])) := by
  unfold process_trainee_sheet
  cases h : f.trainees with
  | error e => rfl
  | ok ts =>
    cases ts with
    | nil => rfl
    | cons t rest => exact trainee_fold_personnel f (t :: rest) st

/-- Travel processing only appends travel rows. -/
theorem process_travel_expenses_eq (f : ExportForm) :
    ∀ st : ExportState, process_travel_expenses st f =
      { st with travel_rows := st.travel_rows ++ travel_rows_of f } := by
  unfold process_travel_expenses travel_rows_of
  cases h : f.travel_expenses with
  | error e => intro st; simp
  | ok es =>
    clear h
    dsimp only
    induction es with
    | nil => intro st; simp
    | cons x rest ih =>
      intro st
      rw [List.foldl_cons, ih]
      simp

/-- Material processing only appends material rows. -/
theorem process_material_expenses_eq (f : ExportForm) :
    ∀ st : ExportState, process_material_expenses st f =
      { st with
        material_rows := st.material_rows ++ material_rows_of f } := by
  unfold process_material_expenses material_rows_of
  cases h : f.material_expenses with
  | error e => intro st; simp
  | ok es =>
    clear h
    dsimp only
    induction es with
    | nil => intro st; simp
    | cons x rest ih =>
      intro st
      rw [List.foldl_cons, ih]
      simp

/-- The trainer-sheet block never touches the attendance rows. -/
theorem process_trainer_sheets_trainee_rows (st : ExportState)
    (f : ExportForm) :
    (process_trainer_sheets st f).trainee_rows = st.trainee_rows := by
  unfold process_trainer_sheets
  by_cases h : f.training_type = "Internal Training"
  · dsimp only
    rw [if_pos h]
    simp [add_person_trainee_rows]
  · dsimp only
    rw [if_neg h]

/-- The trainer-sheet block's roster addition. -/
theorem process_trainer_sheets_personnel (st : ExportState)
    (f : ExportForm) :
    (process_trainer_sheets st f).personnel =
      dedup_first_by_name st.personnel
        (if f.training_type = "Internal Training" then
          [(localPartStr f.trainer_email, f.trainer_department)]
        else []) := by
  unfold process_trainer_sheets
  by_cases h : f.training_type = "Internal Training"
  · dsimp only
    rw [if_pos h, if_pos h]
    show (add_person st (localPartStr f.trainer_email)
        f.trainer_department).personnel = _
    rw [add_person_personnel]
  · dsimp only
    rw [if_neg h, if_neg h]
    rfl

/-- One form's processing appends exactly its attendance rows. -/
theorem process_form_trainee_rows (st : ExportState) (f : ExportForm) :
    (process_form st f).trainee_rows =
      st.trainee_rows ++ trainee_rows_of f := by
  unfold process_form
  rw [process_trainer_sheets_trainee_rows, process_material_expenses_eq,
    process_travel_expenses_eq]
  show (process_trainee_sheet st f).trainee_rows = _
  exact process_trainee_sheet_trainee_rows st f

/-- One form's processing performs exactly its roster additions. -/
theorem process_form_personnel (st : ExportState) (f : ExportForm) :
    (process_form st f).personnel =
      dedup_first_by_name st.personnel (person_occs_of f) := by
  unfold process_form person_occs_of
  rw [process_trainer_sheets_personnel, process_material_expenses_eq,
    process_travel_expenses_eq]
  show dedup_first_by_name (process_trainee_sheet st f).personnel _ = _
  rw [process_trainee_sheet_personnel, dedup_first_by_name_append]

/-- The export loop appends every form's attendance rows in order. -/
theorem export_fold_trainee_rows (forms : List ExportForm) :
    ∀ st : ExportState,
      ((forms.foldl process_form st).trainee_rows) =
        st.trainee_rows ++ forms.flatMap trainee_rows_of := by
  induction forms with
  | nil => intro st; simp
  | cons f rest ih =>
    intro st
    rw [List.foldl_cons, ih, process_form_trainee_rows, List.flatMap_cons,
      List.append_assoc]

/-- The export loop's roster is the deduplication of the full candidate
stream. -/
theorem export_fold_personnel (forms : List ExportForm) :
    ∀ st : ExportState,
      ((forms.foldl process_form st).personnel) =
        dedup_first_by_name st.personnel (person_occs forms) := by
  induction forms with
  | nil => intro st; rfl
  | cons f rest ih =>
    intro st
    rw [List.foldl_cons, ih, process_form_personnel]
    show _ = dedup_first_by_name st.personnel ((f :: rest).flatMap _)
    rw [List.flatMap_cons, dedup_first_by_name_append]
    rfl

/-- Deduplication only ever appends to the accumulated roster. -/
theorem dedup_first_by_name_extends :
    ∀ (l : List (String × String)) (acc : List (String × String)),
      ∃ suf, dedup_first_by_name acc l = acc ++ suf := by
  intro l
  induction l with
  | nil => intro acc; exact ⟨[], by simp [dedup_first_by_name]⟩
  | cons p rest ih =>
    intro acc
    simp only [dedup_first_by_name]
    split_ifs with h
    · obtain ⟨suf, hs⟩ := ih (acc ++ [p])
      exact ⟨[p] ++ suf, by rw [hs, List.append_assoc]⟩
    · exact ih acc

/-- `find?` ignores an appended suffix once it has found a hit. -/
theorem find?_append_left {α : Type} (p : α → Bool) (l1 l2 : List α)
    (q : α) (h : l1.find? p = some q) : (l1 ++ l2).find? p = some q := by
  induction l1 with
  | nil => simp [List.find?] at h
  | cons x rest ih =>
    by_cases hx : p x = true
    · rw [List.find?_cons_of_pos _ hx] at h
      rw [List.cons_append, List.find?_cons_of_pos _ hx]
      exact h
    · rw [List.find?_cons_of_neg _ hx] at h
      rw [List.cons_append, List.find?_cons_of_neg _ hx]
      exact ih h

/-- `find?` over an exhausted prefix proceeds to the suffix. -/
theorem find?_append_none {α : Type} (p : α → Bool) (l1 l2 : List α)
    (h : l1.find? p = none) : (l1 ++ l2).find? p = l2.find? p := by
  induction l1 with
  | nil => rfl
  | cons x rest ih =>
    by_cases hx : p x = true
    · rw [List.find?_cons_of_pos _ hx] at h; cases h
    · rw [List.find?_cons_of_neg _ hx] at h
      rw [List.cons_append, List.find?_cons_of_neg _ hx]
      exact ih h

/-- A hit already in the accumulated roster survives deduplication. -/
theorem dedup_find_stable (l acc : List (String × String)) (n : String)
    (q : String × String)
    (h : acc.find? (fun p => p.1 = n) = some q) :
    (dedup_first_by_name acc l).find? (fun p => p.1 = n) = some q := by
  obtain ⟨suf, hs⟩ := dedup_first_by_name_extends l acc
  rw [hs]
  exact find?_append_left _ _ _ _ h

/-- Once a name is on the roster, its multiplicity never changes. -/
theorem dedup_count_stable (n : String) :
    ∀ (l acc : List (String × String)),
      acc.any (fun p => p.1 = n) = true →
      (dedup_first_by_name acc l).countP (fun p => p.1 = n) =
        acc.countP (fun p => p.1 = n) := by
  intro l
  induction l with
  | nil => intro acc _; rfl
  | cons p rest ih =>
    intro acc h
    simp only [dedup_first_by_name]
    split_ifs with hg
    · have hp : ¬ p.1 = n := by
        intro he
        obtain ⟨q, hq, hqn⟩ := List.any_eq_true.mp h
        have hall := List.all_eq_true.mp hg.2 q hq
        rw [he] at hall
        simp only [decide_eq_true_eq] at hqn hall
        exact hall hqn
      rw [ih (acc ++ [p]) (by rw [List.any_append, h]; rfl)]
      rw [List.countP_append]
      simp [hp]
    · exact ih acc h

/-- A non-empty name occurring in the stream ends up on the roster exactly
once. -/
theorem dedup_count_one (n : String) (hn : n ≠ "") :
    ∀ (l acc : List (String × String)),
      acc.all (fun p => ¬ p.1 = n) = true →
      (∃ d, (n, d) ∈ l) →
      (dedup_first_by_name acc l).countP (fun p => p.1 = n) = 1 := by
  intro l
  induction l with
  | nil =>
    rintro acc _ ⟨d, hd⟩
    simp at hd
  | cons p rest ih =>
    rintro acc hacc ⟨d, hd⟩
    simp only [dedup_first_by_name]
    by_cases hp : p.1 = n
    · have hg : p.1 ≠ "" ∧ acc.all (fun q => q.1 ≠ p.1) = true := by
        constructor
        · rw [hp]; exact hn
        · rw [hp]; exact hacc
      rw [if_pos hg]
      rw [dedup_count_stable n rest (acc ++ [p])
        (by rw [List.any_append]; simp [hp])]
      rw [List.countP_append]
      have hacc0 : acc.countP (fun p => p.1 = n) = 0 := by
        rw [List.countP_eq_zero]
        intro q hq
        have := List.all_eq_true.mp hacc q hq
        simpa using this
      simp [hacc0, hp]
    · have hd' : (n, d) ∈ rest := by
        rcases List.mem_cons.mp hd with he | hm
        · exact absurd (by rw [← he]) hp
        · exact hm
      split_ifs with hg
      · refine ih (acc ++ [p]) ?_ ⟨d, hd'⟩
        rw [List.all_append, hacc]
        simp [hp]
      · exact ih acc hacc ⟨d, hd'⟩

/-- For a non-empty name not yet on the roster, its deduplicated entry is
the first occurrence in the stream. -/
theorem dedup_find_first (n : String) (hn : n ≠ "") :
    ∀ (l acc : List (String × String)),
      acc.all (fun p => ¬ p.1 = n) = true →
      (dedup_first_by_name acc l).find? (fun p => p.1 = n) =
        l.find? (fun p => p.1 = n) := by
  intro l
  induction l with
  | nil =>
    intro acc hacc
    simp only [dedup_first_by_name, List.find?_nil]
    rw [List.find?_eq_none]
    intro q hq
    have := List.all_eq_true.mp hacc q hq
    simpa using this
  | cons p rest ih =>
    intro acc hacc
    simp only [dedup_first_by_name]
    by_cases hp : p.1 = n
    · have hg : p.1 ≠ "" ∧ acc.all (fun q => q.1 ≠ p.1) = true := by
        constructor
        · rw [hp]; exact hn
        · rw [hp]; exact hacc
      rw [if_pos hg]
      have hfound : (acc ++ [p]).find? (fun q => q.1 = n) = some p := by
        rw [find?_append_none]
        · simp [hp]
        · rw [List.find?_eq_none]
          intro q hq
          have := List.all_eq_true.mp hacc q hq
          simpa using this
      rw [dedup_find_stable rest (acc ++ [p]) n p hfound]
      rw [List.find?_cons_of_pos _ (by simpa using hp)]
    · split_ifs with hg
      · rw [ih (acc ++ [p]) (by rw [List.all_append, hacc]; simp [hp])]
        rw [List.find?_cons_of_neg _ (by simpa using hp)]
      · rw [ih acc hacc]
        rw [List.find?_cons_of_neg _ (by simpa using hp)]

/-- A trainee email mentioned by a form yields a candidate roster
occurrence under that trainee's derived name. -/
theorem occ_of_appears (e : String) (f : ExportForm)
    (h : appears_as_trainee e f = true) :
    ∃ d, (localPartStr e, d) ∈ person_occs_of f := by
  unfold appears_as_trainee at h
  cases ht : f.trainees with
  | error msg => rw [ht] at h; cases h
  | ok ts =>
    rw [ht] at h
    obtain ⟨t, htm, hte⟩ := List.any_eq_true.mp h
    have hte' : t.email = e := by simpa using hte
    refine ⟨t.department, ?_⟩
    unfold person_occs_of
    rw [ht]
    apply List.mem_append_left
    dsimp only
    refine List.mem_flatMap.mpr ⟨t, htm, ?_⟩
    rw [hte']
    exact List.mem_cons_self _ _

/-- C10 (amended): a trainee email with a non-empty derived name that
appears on two or more forms yields exactly one personnel-lookup row,
carrying the (name, department) pair of that person's first candidate
occurrence in processing order. -/
theorem export_personnel_single_row (forms : List ExportForm) (e : String)
    (hname : localPartStr e ≠ "")
    (hcount : 2 ≤ forms.countP (appears_as_trainee e)) :
    (export_workbook forms).personnel_rows.countP
        (fun p => p.1 = localPartStr e) = 1 ∧
    (export_workbook forms).personnel_rows.find?
        (fun p => p.1 = localPartStr e) =
      (person_occs forms).find? (fun p => p.1 = localPartStr e) := by
  have hmem : ∃ d, (localPartStr e, d) ∈ person_occs forms := by
    have hpos : 0 < forms.countP (appears_as_trainee e) :=
      lt_of_lt_of_le (by norm_num) hcount
    obtain ⟨f, hf, hap⟩ := List.countP_pos_iff.mp hpos
    obtain ⟨d, hd⟩ := occ_of_appears e f hap
    exact ⟨d, List.mem_flatMap.mpr ⟨f, hf, hd⟩⟩
  have hper : (export_workbook forms).personnel_rows =
      dedup_first_by_name [] (person_occs forms) := by
    show (forms.foldl process_form {}).personnel = _
    rw [export_fold_personnel]
  rw [hper]
  exact ⟨dedup_count_one _ hname _ _ (by rfl) hmem,
    dedup_find_first _ hname _ _ (by rfl)⟩

/-- Witness for C10 (amended): `alice@x.com` on two forms with differing
departments yields one roster row, bearing the first department. -/
theorem export_personnel_single_row_witness :
    (export_workbook [c10_first, c10_second]).personnel_rows.countP
        (fun p => p.1 = localPartStr "alice@x.com") = 1 ∧
    (export_workbook [c10_first, c10_second]).personnel_rows.find?
        (fun p => p.1 = localPartStr "alice@x.com") =
      (person_occs [c10_first, c10_second]).find?
        (fun p => p.1 = localPartStr "alice@x.com") :=
  export_personnel_single_row [c10_first, c10_second] "alice@x.com"
    (by decide) (by decide)

/-- Counterexample to C10 as stated: the email `"@corp.com"` appears as a
trainee on two forms, but its derived name is empty and the `add_person`
guard drops it, so the personnel sheet contains zero rows for that person,
not one. -/
theorem export_personnel_empty_name_dropped :
    2 ≤ ([c10_anon1, c10_anon2].countP (appears_as_trainee "@corp.com")) ∧
      (export_workbook [c10_anon1, c10_anon2]).personnel_rows.countP
        (fun p => p.1 = localPartStr "@corp.com") = 0 := by
  decide

/-- C3 (amended): with the template present and serialization succeeding,
the export always produces a workbook, whatever per-form failures occur;
each form contributes its attendance rows, a failing form contributing
none (its error is caught per form, the loop continues). -/
theorem export_survives_per_form_failures (forms : List ExportForm) :
    run_export true true forms = ExportResult.file (export_workbook forms) ∧
      (export_workbook forms).trainee_rows =
        forms.flatMap trainee_rows_of := by
  constructor
  · rfl
  · show (forms.foldl process_form {}).trainee_rows = _
    rw [export_fold_trainee_rows]
    rfl

/-- Counterexample to C3 as stated: a batch containing a form whose
processing raises still produces a workbook — the failing form is skipped
and the next form's row is present. -/
theorem export_produces_file_despite_failing_form :
    c3_bad.trainees = Except.error "database error" ∧
      (run_export true true [c3_bad, c3_good]).producedFile = true ∧
      (export_workbook [c3_bad, c3_good]).trainee_rows =
        [row_of_trainee c3_good ⟨"bob@x.com", "Ops"⟩] := by
  decide
